import Mathlib

/-!
Verification of the pywatch clock-and-reminders widget
(`relogio_UI_pyside.py`) against its specification.

The program state is shallowly embedded: each Qt widget the handlers
mutate becomes a field of `WindowState`, each handler becomes a pure
state-transition function translated line by line from the Python
source, and toolkit behaviour the program relies on (default item
flags, default selection mode, selection gestures) is modelled from
the documented Qt semantics.  Strings are `List Char`.
-/

namespace PyWatch

/-- Python `str.strip()` on a character list: drop leading whitespace,
then drop trailing whitespace (via reverse).  Whitespace is
`Char.isWhitespace`, matching the ASCII whitespace the program can
meet in practice.  Embeds `self.rem_input.text().strip()`. -/
def pyStrip (s : List Char) : List Char :=
  ((s.dropWhile Char.isWhitespace).reverse.dropWhile Char.isWhitespace).reverse

/-- The three `Qt.ItemFlag` bits the program manipulates on a list
item: `ItemIsUserCheckable`, `ItemIsEnabled`, `ItemIsSelectable`. -/
structure ItemFlags where
  userCheckable : Bool
  enabled : Bool
  selectable : Bool
deriving DecidableEq

/-- Bitwise OR of item flags, embedding `item.flags() | ...`. -/
def orFlags (a b : ItemFlags) : ItemFlags :=
  ⟨a.userCheckable || b.userCheckable, a.enabled || b.enabled,
   a.selectable || b.selectable⟩

/-- Default flags of a freshly constructed `QListWidgetItem`
(Qt constructs items selectable, user-checkable, enabled and
drag-enabled; only the three bits the program touches are kept). -/
def defaultItemFlags : ItemFlags := ⟨true, true, true⟩

/-- One reminder entry: the text shown, the checkbox state, and the
item flags. -/
structure Reminder where
  text : List Char
  checked : Bool
  flags : ItemFlags
deriving DecidableEq

/-- Embeds the item construction in `add_reminder`:
`item = QListWidgetItem(text)`, then
`item.setFlags(item.flags() | Qt.ItemIsUserCheckable | Qt.ItemIsEnabled | Qt.ItemIsSelectable)`,
then `item.setCheckState(Qt.Unchecked)`. -/
def newReminder (text : List Char) : Reminder :=
  { text := text, checked := false,
    flags := orFlags defaultItemFlags ⟨true, true, true⟩ }

/-- Selection modes of `QAbstractItemView` that matter here. -/
inductive SelectionMode where
  | single
  | extended
deriving DecidableEq

/-- Qt default: `QAbstractItemView.selectionMode` is `SingleSelection`
for a freshly constructed `QListWidget`; the program never calls
`setSelectionMode`. -/
def defaultSelectionMode : SelectionMode := SelectionMode.single

/-- A wall-clock sample as `strftime` consumes it: the numeric fields
plus the locale-rendered weekday and month names. -/
structure DateTime where
  hour : Nat
  minute : Nat
  second : Nat
  weekdayName : List Char
  day : Nat
  monthName : List Char
  year : Nat
deriving DecidableEq

/-- `printf`-style `%02d` for values below 100 (the only values
`%H`, `%M`, `%S`, `%d` produce): two decimal digits, zero padded. -/
def pad2 (n : Nat) : List Char := [Nat.digitChar (n / 10), Nat.digitChar (n % 10)]

/-- Decimal rendering helper with explicit fuel (structural recursion;
the fuel is an upper bound on the digit count, `n + 1` suffices). -/
def natDecimalAux : Nat → Nat → List Char → List Char
  | 0, _, acc => acc
  | fuel + 1, n, acc =>
    if n < 10 then Nat.digitChar n :: acc
    else natDecimalAux fuel (n / 10) (Nat.digitChar (n % 10) :: acc)

/-- Decimal rendering of a natural number, as `%Y` prints a year. -/
def natDecimal (n : Nat) : List Char := natDecimalAux (n + 1) n []

/-- Embeds `strftime("%H:%M:%S")`. -/
def fmtTime (t : DateTime) : List Char :=
  pad2 t.hour ++ ':' :: pad2 t.minute ++ ':' :: pad2 t.second

/-- Embeds `strftime("%A, %d %B %Y")`: full weekday name, comma,
space, zero-padded day, space, full month name, space, year. -/
def fmtDate (t : DateTime) : List Char :=
  t.weekdayName ++ ',' :: ' ' :: pad2 t.day ++ ' ' :: t.monthName ++ ' ' :: natDecimal t.year

/-- The widget state `WatchWindow` mutates: the reminder list (each
item paired with a construction identity so distinct items with equal
text stay distinct, as Qt item objects do), the id counter, the input
field, the current selection (ids of selected items), the two clock
labels, and the timer and selection-mode configuration. -/
structure WindowState where
  reminders : List (Nat × Reminder)
  nextId : Nat
  input : List Char
  selected : List Nat
  timeLabel : List Char
  dateLabel : List Char
  timerActive : Bool
  timerIntervalMs : Nat
  selectionMode : SelectionMode
deriving DecidableEq

/-- Embeds `WatchWindow.update_clock`: overwrite the two labels with
the formatted current time and date. -/
def update_clock (st : WindowState) (now : DateTime) : WindowState :=
  { st with timeLabel := fmtTime now, dateLabel := fmtDate now }

/-- Embeds `WatchWindow.add_reminder`:
`text = self.rem_input.text().strip()`; `if not text: return`;
otherwise build the item (`newReminder`), `self.rem_list.addItem(item)`
(append at the end), and `self.rem_input.clear()`. -/
def add_reminder (st : WindowState) : WindowState :=
  let text := pyStrip st.input
  if text = [] then st
  else
    { st with
      reminders := st.reminders ++ [(st.nextId, newReminder text)],
      nextId := st.nextId + 1,
      input := [] }

/-- Embeds one iteration of the loop body in `delete_selected`:
`row = self.rem_list.row(item)` finds the row of the item with the
given identity and `self.rem_list.takeItem(row)` removes that row;
together they erase the first (hence, ids being unique, the only)
item with that identity, and do nothing when the id is absent
(`row` returns -1 and `takeItem(-1)` is a no-op). -/
def removeItem : List (Nat × Reminder) → Nat → List (Nat × Reminder)
  | [], _ => []
  | p :: rest, i => if p.1 = i then rest else p :: removeItem rest i

/-- Embeds the loop of `delete_selected`:
`for item in self.rem_list.selectedItems(): ... takeItem(row)` — the
snapshot of selected item ids is walked and each one is removed. -/
def deleteSelectedLoop (items : List (Nat × Reminder)) (sel : List Nat) :
    List (Nat × Reminder) :=
  sel.foldl removeItem items

/-- Embeds `WatchWindow.delete_selected` acting on the window state. -/
def delete_selected (st : WindowState) : WindowState :=
  { st with reminders := deleteSelectedLoop st.reminders st.selected }

/-- Toolkit-provided checkbox toggle on the item at row `i`
(spec operation ToggleCheck): flips `checked`, touches nothing else. -/
def toggleAt : List (Nat × Reminder) → Nat → List (Nat × Reminder)
  | [], _ => []
  | p :: rest, 0 => (p.1, { p.2 with checked := !p.2.checked }) :: rest
  | p :: rest, i + 1 => p :: toggleAt rest i

/-- Embeds `WatchWindow.__init__` as far as the handlers observe it:
empty reminder list and input, default (single) selection mode since
`setSelectionMode` is never called, timer started with
`self.timer.start(1000)`, and one synchronous `self.update_clock()`
call at the end so the labels are populated before first paint. -/
def initWindow (t0 : DateTime) : WindowState :=
  update_clock
    { reminders := [], nextId := 0, input := [], selected := [],
      timeLabel := [], dateLabel := [],
      timerActive := true, timerIntervalMs := 1000,
      selectionMode := defaultSelectionMode } t0

/-- The user-triggered events of the running window.  `addRem s` is
typing `s` into the input field and pressing Add (or Enter);
`toggleCheck i` is clicking the checkbox of row `i`; `deleteSel sel`
is selecting the items with ids `sel` and pressing Delete selected;
`tick now` is one timer callback. -/
inductive Op where
  | addRem (typed : List Char)
  | toggleCheck (idx : Nat)
  | deleteSel (sel : List Nat)
  | tick (now : DateTime)

/-- One event dispatch. -/
def step (st : WindowState) : Op → WindowState
  | Op.addRem s => add_reminder { st with input := s }
  | Op.toggleCheck i => { st with reminders := toggleAt st.reminders i }
  | Op.deleteSel sel => delete_selected { st with selected := sel }
  | Op.tick now => update_clock st now

/-- The state after the window is constructed at time `t0` and the
given event sequence is dispatched. -/
def run (t0 : DateTime) (ops : List Op) : WindowState :=
  ops.foldl step (initWindow t0)

/-- First locale candidate of the module-level loop. -/
def locBR : String := "pt_BR.UTF-8"

/-- Second locale candidate of the module-level loop. -/
def locPTWin : String := "Portuguese_Brazil.1252"

/-- The ordered locale candidates of the module-level loop:
`for loc in ("pt_BR.UTF-8", "Portuguese_Brazil.1252")`. -/
def candidateLocales : List String := [locBR, locPTWin]

/-- Embeds the locale loop body: try `locale.setlocale(LC_TIME, loc)`
for each candidate; on the first success `break` with that locale in
force; on failure the bare `except: pass` swallows the error and the
loop continues; if all fail the platform default stays in force.
`avail` abstracts which locale identifiers the platform accepts. -/
def tryLocalesLoop (avail : String → Bool) (current : String) :
    List String → String
  | [] => current
  | l :: rest => if avail l then l else tryLocalesLoop avail current rest

/-- The locale in force after module start-up. -/
def localeAfterStartup (avail : String → Bool) (platformDefault : String) : String :=
  tryLocalesLoop avail platformDefault candidateLocales

/-- The `setlocale` calls the loop actually makes, in order: every
candidate up to and including the first success. -/
def localeAttemptTrace (avail : String → Bool) : List String → List String
  | [] => []
  | l :: rest => if avail l then [l] else l :: localeAttemptTrace avail rest

/-- User selection gestures on the list view (modelled from Qt
`QAbstractItemView` semantics). -/
inductive Gesture where
  | plainClick (i : Nat)
  | ctrlClick (i : Nat)
  | shiftClick (i : Nat)

/-- Effect of a gesture on the selected set under a given selection
mode, per Qt semantics.  In `SingleSelection` a plain or Shift click
selects exactly the clicked item and a Ctrl click toggles it, so the
selection never holds more than one item.  In `ExtendedSelection` a
Ctrl click adds or removes the clicked item (the Shift range gesture
is modelled coarsely as extension; its exact range is irrelevant
here). -/
def applyGesture (mode : SelectionMode) (sel : List Nat) : Gesture → List Nat
  | Gesture.plainClick i => [i]
  | Gesture.ctrlClick i =>
    match mode with
    | SelectionMode.single => if i ∈ sel then [] else [i]
    | SelectionMode.extended => if i ∈ sel then sel.erase i else i :: sel
  | Gesture.shiftClick i =>
    match mode with
    | SelectionMode.single => [i]
    | SelectionMode.extended => sel ++ [i]

/-! ### C1: adding a non-blank reminder -/

/-- C1.  For every input-field string whose trim is non-empty,
`add_reminder` appends exactly one entry at the end of the list, with
the trimmed text and an unchecked state, leaves every pre-existing
entry (content and order) unchanged, and clears the input field. -/
theorem add_reminder_appends (st : WindowState) (h : pyStrip st.input ≠ []) :
    (add_reminder st).reminders =
      st.reminders ++ [(st.nextId, newReminder (pyStrip st.input))] ∧
    (add_reminder st).reminders.length = st.reminders.length + 1 ∧
    (newReminder (pyStrip st.input)).text = pyStrip st.input ∧
    (newReminder (pyStrip st.input)).checked = false ∧
    (add_reminder st).reminders.take st.reminders.length = st.reminders ∧
    (add_reminder st).input = [] := by
  simp [add_reminder, h, newReminder]

/-- A sample state whose input field holds a padded non-blank text. -/
def W1 : WindowState :=
  { reminders := [], nextId := 0, input := ("  buy milk ".data),
    selected := [], timeLabel := [], dateLabel := [],
    timerActive := true, timerIntervalMs := 1000,
    selectionMode := SelectionMode.single }

/-- C1 witness at the concrete state `W1`. -/
theorem add_reminder_appends_witness :
    pyStrip W1.input ≠ [] ∧
    ((add_reminder W1).reminders =
        W1.reminders ++ [(W1.nextId, newReminder (pyStrip W1.input))] ∧
      (add_reminder W1).reminders.length = W1.reminders.length + 1 ∧
      (newReminder (pyStrip W1.input)).text = pyStrip W1.input ∧
      (newReminder (pyStrip W1.input)).checked = false ∧
      (add_reminder W1).reminders.take W1.reminders.length = W1.reminders ∧
      (add_reminder W1).input = []) :=
  ⟨by decide, add_reminder_appends W1 (by decide)⟩

/-! ### C4: blank input is a silent no-op -/

/-- C4.  When the trimmed input is empty, `add_reminder` returns the
state unchanged: no entry is created and the input field keeps its
contents (the guard returns before `clear()`). -/
theorem add_reminder_blank_noop (st : WindowState) (h : pyStrip st.input = []) :
    add_reminder st = st := by
  simp [add_reminder, h]

/-- A sample state whose input field holds only whitespace. -/
def W4 : WindowState := { W1 with input := ("   ".data) }

/-- C4 witness at the concrete whitespace-only state `W4`. -/
theorem add_reminder_blank_noop_witness :
    pyStrip W4.input = [] ∧ add_reminder W4 = W4 :=
  ⟨by decide, add_reminder_blank_noop W4 (by decide)⟩

/-! ### C8: the timer callback only rewrites the two labels -/

/-- C8.  A timer tick (`update_clock`) modifies only the two clock
labels: for every state it leaves the reminder list, the input field,
the selection, the id counter, the timer configuration and the
selection mode exactly as they were. -/
theorem update_clock_frame (st : WindowState) (now : DateTime) :
    (step st (Op.tick now)).reminders = st.reminders ∧
    (step st (Op.tick now)).input = st.input ∧
    (step st (Op.tick now)).selected = st.selected ∧
    (step st (Op.tick now)).nextId = st.nextId ∧
    (step st (Op.tick now)).timerActive = st.timerActive ∧
    (step st (Op.tick now)).timerIntervalMs = st.timerIntervalMs ∧
    (step st (Op.tick now)).selectionMode = st.selectionMode ∧
    step st (Op.tick now) = update_clock st now :=
  ⟨rfl, rfl, rfl, rfl, rfl, rfl, rfl, rfl⟩

/-! ### C6: best-effort locale selection -/

/-- C6.  The start-up locale loop keeps the first candidate that
succeeds and stops there (the attempt trace ends at the first
success); if every candidate fails the platform default is silently
kept; in every case the result is either a candidate or the default —
there is no error outcome. -/
theorem locale_fallback_first_success (avail : String → Bool) (platformDefault : String) :
    (avail locBR = true →
      localeAfterStartup avail platformDefault = locBR ∧
      localeAttemptTrace avail candidateLocales = [locBR]) ∧
    (avail locBR = false → avail locPTWin = true →
      localeAfterStartup avail platformDefault = locPTWin ∧
      localeAttemptTrace avail candidateLocales = [locBR, locPTWin]) ∧
    (avail locBR = false → avail locPTWin = false →
      localeAfterStartup avail platformDefault = platformDefault ∧
      localeAttemptTrace avail candidateLocales = [locBR, locPTWin]) ∧
    (localeAfterStartup avail platformDefault ∈ candidateLocales ∨
      localeAfterStartup avail platformDefault = platformDefault) := by
  cases h1 : avail locBR <;> cases h2 : avail locPTWin <;>
    simp [localeAfterStartup, tryLocalesLoop, localeAttemptTrace,
      candidateLocales, h1, h2]

/-- A platform where only the second candidate locale is installed. -/
def availSecond : String → Bool := fun s => s == locPTWin

/-- The platform default locale used in the C6 witness. -/
def defaultLocaleC : String := "C"

/-- C6 witness: with only the second candidate available, start-up
ends on the second candidate after trying both. -/
theorem locale_fallback_first_success_witness :
    localeAfterStartup availSecond defaultLocaleC = locPTWin ∧
    localeAttemptTrace availSecond candidateLocales = [locBR, locPTWin] :=
  (locale_fallback_first_success availSecond defaultLocaleC).2.1
    (by decide) (by decide)

/-! ### C2: deleting exactly the selected entries -/

lemma removeItem_sublist (l : List (Nat × Reminder)) (i : Nat) :
    (removeItem l i).Sublist l := by
  induction l with
  | nil => exact List.Sublist.refl []
  | cons p rest ih =>
    by_cases h : p.1 = i
    · have he : removeItem (p :: rest) i = rest := by simp [removeItem, h]
      rw [he]; exact List.sublist_cons_self p rest
    · have he : removeItem (p :: rest) i = p :: removeItem rest i := by
        simp [removeItem, h]
      rw [he]; exact List.Sublist.cons₂ p ih

lemma removeItem_eq_filter (l : List (Nat × Reminder)) (i : Nat)
    (h : (l.map Prod.fst).Nodup) :
    removeItem l i = l.filter (fun p => decide (p.1 ≠ i)) := by
  induction l with
  | nil => rfl
  | cons p rest ih =>
    rw [List.map_cons, List.nodup_cons] at h
    by_cases hp : p.1 = i
    · have hrm : removeItem (p :: rest) i = rest := by simp [removeItem, hp]
      have hfil : List.filter (fun q => decide (q.1 ≠ i)) (p :: rest) = rest := by
        rw [List.filter_cons, if_neg (by simp [hp])]
        refine List.filter_eq_self.mpr fun q hq => ?_
        have : q.1 ≠ i := fun he => h.1 (by rw [hp, ← he]; exact List.mem_map_of_mem Prod.fst hq)
        simpa using this
      rw [hrm, hfil]
    · simp [removeItem, hp, ih h.2]

lemma deleteLoop_eq_filter (sel : List Nat) (l : List (Nat × Reminder))
    (h : (l.map Prod.fst).Nodup) :
    deleteSelectedLoop l sel = l.filter (fun p => decide (p.1 ∉ sel)) := by
  induction sel generalizing l with
  | nil => simp [deleteSelectedLoop]
  | cons i rest ih =>
    have hnd : ((removeItem l i).map Prod.fst).Nodup :=
      List.Nodup.sublist ((removeItem_sublist l i).map Prod.fst) h
    have hstep : deleteSelectedLoop l (i :: rest) = deleteSelectedLoop (removeItem l i) rest := rfl
    rw [hstep, ih _ hnd, removeItem_eq_filter l i h, List.filter_filter]
    refine List.filter_congr fun x _ => ?_
    by_cases h1 : x.1 = i <;> by_cases h2 : x.1 ∈ rest <;>
      simp [h1, h2, List.mem_cons]

/-- C2.  `delete_selected` removes exactly the selected entries: the
surviving list is the original filtered to the non-selected ids, a
sublist of the original (relative order preserved, entries untouched);
every non-selected entry survives, nothing selected survives, and an
empty selection leaves the whole state unchanged.  The hypothesis says
the item identities are distinct, which holds for every list the
program builds. -/
theorem delete_selected_removes_exactly_selection (st : WindowState)
    (h : (st.reminders.map Prod.fst).Nodup) :
    (delete_selected st).reminders =
      st.reminders.filter (fun p => decide (p.1 ∉ st.selected)) ∧
    ((delete_selected st).reminders).Sublist st.reminders ∧
    (∀ p ∈ st.reminders, p.1 ∉ st.selected → p ∈ (delete_selected st).reminders) ∧
    (∀ p ∈ (delete_selected st).reminders, p.1 ∉ st.selected) ∧
    (st.selected = [] → delete_selected st = st) := by
  have key : (delete_selected st).reminders =
      st.reminders.filter (fun p => decide (p.1 ∉ st.selected)) :=
    deleteLoop_eq_filter st.selected st.reminders h
  refine ⟨key, ?_, ?_, ?_, ?_⟩
  · rw [key]; exact List.filter_sublist st.reminders
  · intro p hp hsel
    rw [key]; exact List.mem_filter.mpr ⟨hp, by simpa using hsel⟩
  · intro p hp
    rw [key] at hp
    simpa using (List.mem_filter.mp hp).2
  · intro h0
    have hr : deleteSelectedLoop st.reminders st.selected = st.reminders := by
      rw [h0]; rfl
    show { st with reminders := deleteSelectedLoop st.reminders st.selected } = st
    rw [hr]

/-- A sample state with three distinct reminders, the first and the
third selected (a discontiguous selection). -/
def W2 : WindowState :=
  { W1 with
    input := [],
    reminders := [(0, newReminder ['a']), (1, newReminder ['b']),
      (2, newReminder ['c'])],
    nextId := 3, selected := [0, 2] }

/-- C2 witness: deleting the discontiguous selection {0, 2} of `W2`
keeps exactly the middle entry. -/
theorem delete_selected_removes_exactly_selection_witness :
    (delete_selected W2).reminders =
      W2.reminders.filter (fun p => decide (p.1 ∉ W2.selected)) ∧
    ((delete_selected W2).reminders).Sublist W2.reminders ∧
    (∀ p ∈ W2.reminders, p.1 ∉ W2.selected → p ∈ (delete_selected W2).reminders) ∧
    (∀ p ∈ (delete_selected W2).reminders, p.1 ∉ W2.selected) ∧
    (W2.selected = [] → delete_selected W2 = W2) :=
  delete_selected_removes_exactly_selection W2 (by decide)

/-! ### Properties of `pyStrip` -/

lemma head?_dropWhile {α : Type} (p : α → Bool) (l : List α) :
    ∀ c, (l.dropWhile p).head? = some c → p c = false := by
  induction l with
  | nil => intro c hc; simp at hc
  | cons a t ih =>
    intro c hc
    rw [List.dropWhile_cons] at hc
    by_cases h : p a
    · rw [if_pos h] at hc; exact ih c hc
    · rw [if_neg h] at hc
      simp only [List.head?_cons, Option.some.injEq] at hc
      rw [← hc]
      exact Bool.not_eq_true (p a) ▸ eq_false_of_ne_true h

lemma dropWhile_eq_self_of_head {α : Type} (p : α → Bool) (l : List α)
    (h : ∀ c, l.head? = some c → p c = false) : l.dropWhile p = l := by
  cases l with
  | nil => rfl
  | cons a t => rw [List.dropWhile_cons, if_neg (by simp [h a rfl])]

lemma getLast?_dropWhile {α : Type} (p : α → Bool) (l : List α)
    (hne : l.dropWhile p ≠ []) :
    (l.dropWhile p).getLast? = l.getLast? := by
  obtain ⟨u, hu⟩ := List.dropWhile_suffix (l := l) p
  conv_rhs => rw [← hu]
  rw [List.getLast?_append]
  cases hd : (l.dropWhile p).getLast? with
  | none => exact absurd (List.getLast?_eq_none_iff.mp hd) hne
  | some c => rfl

/-- The last character of a stripped string is not whitespace. -/
lemma pyStrip_getLast? (s : List Char) :
    ∀ c, (pyStrip s).getLast? = some c → c.isWhitespace = false := by
  intro c hc
  unfold pyStrip at hc
  rw [List.getLast?_reverse] at hc
  exact head?_dropWhile _ _ c hc

/-- The first character of a stripped string is not whitespace. -/
lemma pyStrip_head? (s : List Char) :
    ∀ c, (pyStrip s).head? = some c → c.isWhitespace = false := by
  intro c hc
  unfold pyStrip at hc
  rw [List.head?_reverse] at hc
  have hne : ((s.dropWhile Char.isWhitespace).reverse.dropWhile Char.isWhitespace) ≠ [] := by
    intro h0; rw [h0] at hc; simp at hc
  rw [getLast?_dropWhile _ _ hne, List.getLast?_reverse] at hc
  exact head?_dropWhile _ _ c hc

/-- A string whose ends are not whitespace is unchanged by `pyStrip`. -/
lemma pyStrip_eq_self (t : List Char)
    (h1 : ∀ c, t.head? = some c → c.isWhitespace = false)
    (h2 : ∀ c, t.getLast? = some c → c.isWhitespace = false) :
    pyStrip t = t := by
  have hrev : ∀ c, t.reverse.head? = some c → Char.isWhitespace c = false := by
    intro c hc; rw [List.head?_reverse] at hc; exact h2 c hc
  unfold pyStrip
  rw [dropWhile_eq_self_of_head _ _ h1, dropWhile_eq_self_of_head _ _ hrev,
    List.reverse_reverse]

/-- Stripping is idempotent: a stored (already stripped) text has no
leading or trailing whitespace. -/
lemma pyStrip_idem (s : List Char) : pyStrip (pyStrip s) = pyStrip s :=
  pyStrip_eq_self _ (pyStrip_head? s) (pyStrip_getLast? s)

/-- A non-empty stripped string contains a non-whitespace character. -/
lemma pyStrip_has_nonws (s : List Char) (h : pyStrip s ≠ []) :
    ∃ c ∈ pyStrip s, c.isWhitespace = false := by
  cases hc : (pyStrip s).head? with
  | none => exact absurd (List.head?_eq_none_iff.mp hc) h
  | some c =>
    exact ⟨c, List.mem_of_mem_head? (by rw [hc]; rfl), pyStrip_head? s c hc⟩

/-! ### The reachable-state invariant -/

/-- A stored reminder text as the spec demands it: non-empty, fixed
by trimming (no leading or trailing whitespace), and containing a
non-whitespace character. -/
def textOk (t : List Char) : Prop :=
  t ≠ [] ∧ pyStrip t = t ∧ ∃ c ∈ t, c.isWhitespace = false

/-- Everything the event handlers preserve: every stored text is
trimmed non-blank, every item carries the three user-interaction
flags, ids are below the counter and strictly increasing along the
list (the list order is the insertion order), the timer stays armed
at 1000 ms and the selection mode stays the Qt default. -/
def StateOk (st : WindowState) : Prop :=
  (∀ p ∈ st.reminders, textOk p.2.text ∧
    p.2.flags.userCheckable = true ∧ p.2.flags.enabled = true ∧
    p.2.flags.selectable = true) ∧
  (∀ p ∈ st.reminders, p.1 < st.nextId) ∧
  List.Chain' (fun a b => a < b) (st.reminders.map Prod.fst) ∧
  st.timerActive = true ∧ st.timerIntervalMs = 1000 ∧
  st.selectionMode = SelectionMode.single

lemma stateOk_init (t0 : DateTime) : StateOk (initWindow t0) := by
  refine ⟨?_, ?_, ?_, rfl, rfl, rfl⟩ <;> simp [initWindow, update_clock]

lemma toggleAt_map_fst (l : List (Nat × Reminder)) (i : Nat) :
    (toggleAt l i).map Prod.fst = l.map Prod.fst := by
  induction l generalizing i with
  | nil => rfl
  | cons p rest ih =>
    cases i with
    | zero => simp [toggleAt]
    | succ j => simp [toggleAt, ih]

lemma toggleAt_mem (l : List (Nat × Reminder)) (i : Nat) :
    ∀ p ∈ toggleAt l i, ∃ q ∈ l,
      p.1 = q.1 ∧ p.2.text = q.2.text ∧ p.2.flags = q.2.flags := by
  induction l generalizing i with
  | nil => intro p hp; simp [toggleAt] at hp
  | cons a rest ih =>
    cases i with
    | zero =>
      intro p hp
      rcases List.mem_cons.mp hp with he | hm
      · exact ⟨a, List.mem_cons_self a rest, by rw [he], by rw [he], by rw [he]⟩
      · exact ⟨p, List.mem_cons_of_mem a hm, rfl, rfl, rfl⟩
    | succ j =>
      intro p hp
      rcases List.mem_cons.mp hp with he | hm
      · exact ⟨a, List.mem_cons_self a rest, by rw [he], by rw [he], by rw [he]⟩
      · obtain ⟨q, hq, hq1, hq2, hq3⟩ := ih j p hm
        exact ⟨q, List.mem_cons_of_mem a hq, hq1, hq2, hq3⟩

lemma deleteLoop_sublist (sel : List Nat) (l : List (Nat × Reminder)) :
    (deleteSelectedLoop l sel).Sublist l := by
  induction sel generalizing l with
  | nil => exact List.Sublist.refl l
  | cons i rest ih => exact (ih (removeItem l i)).trans (removeItem_sublist l i)

lemma stateOk_step (st : WindowState) (op : Op) (h : StateOk st) :
    StateOk (step st op) := by
  obtain ⟨hmem, hid, hchain, hta, hti, hsm⟩ := h
  cases op with
  | addRem s =>
    show StateOk (add_reminder { st with input := s })
    by_cases hs : pyStrip s = []
    · have he : add_reminder { st with input := s } = { st with input := s } := by
        simp [add_reminder, hs]
      rw [he]
      exact ⟨hmem, hid, hchain, hta, hti, hsm⟩
    · have he : add_reminder { st with input := s } =
          { st with
            reminders := st.reminders ++ [(st.nextId, newReminder (pyStrip s))],
            nextId := st.nextId + 1, input := [] } := by
        simp [add_reminder, hs]
      rw [he]
      refine ⟨?_, ?_, ?_, hta, hti, hsm⟩
      · intro p hp
        rcases List.mem_append.mp hp with hold | hnew
        · exact hmem p hold
        · have : p = (st.nextId, newReminder (pyStrip s)) := by simpa using hnew
          rw [this]
          exact ⟨⟨hs, pyStrip_idem s, pyStrip_has_nonws s hs⟩, rfl, rfl, rfl⟩
      · intro p hp
        rcases List.mem_append.mp hp with hold | hnew
        · exact Nat.lt_succ_of_lt (hid p hold)
        · have : p = (st.nextId, newReminder (pyStrip s)) := by simpa using hnew
          rw [this]; exact Nat.lt_succ_self _
      · rw [List.map_append]
        refine List.chain'_append.mpr ⟨hchain, List.chain'_singleton _, ?_⟩
        intro x hx y hy
        have hxm : x ∈ st.reminders.map Prod.fst := List.mem_of_mem_getLast? hx
        obtain ⟨q, hq, hqx⟩ := List.mem_map.mp hxm
        have h0 : st.nextId = y := by simpa using hy
        rw [← h0, ← hqx]
        exact hid q hq
  | toggleCheck i =>
    refine ⟨?_, ?_, ?_, hta, hti, hsm⟩
    · intro p hp
      obtain ⟨q, hq, _, ht, hf⟩ := toggleAt_mem st.reminders i p hp
      obtain ⟨hq1, hq2, hq3, hq4⟩ := hmem q hq
      exact ⟨ht ▸ hq1, hf ▸ hq2, hf ▸ hq3, hf ▸ hq4⟩
    · intro p hp
      obtain ⟨q, hq, h1, _, _⟩ := toggleAt_mem st.reminders i p hp
      exact h1 ▸ hid q hq
    · show List.Chain' _ ((toggleAt st.reminders i).map Prod.fst)
      rw [toggleAt_map_fst]
      exact hchain
  | deleteSel sel =>
    have hsub := deleteLoop_sublist sel st.reminders
    refine ⟨?_, ?_, ?_, hta, hti, hsm⟩
    · intro p hp; exact hmem p (hsub.subset hp)
    · intro p hp; exact hid p (hsub.subset hp)
    · exact List.Chain'.sublist hchain (hsub.map Prod.fst)
  | tick now => exact ⟨hmem, hid, hchain, hta, hti, hsm⟩

lemma stateOk_run (t0 : DateTime) (ops : List Op) : StateOk (run t0 ops) := by
  suffices h : ∀ (l : List Op) (st : WindowState), StateOk st → StateOk (l.foldl step st) from
    h ops _ (stateOk_init t0)
  intro l
  induction l with
  | nil => intro st hst; exact hst
  | cons op rest ih => intro st hst; exact ih _ (stateOk_step st op hst)

/-! ### C5: stored texts are trimmed and non-blank, order is insertion order -/

/-- C5.  In every state reachable from the freshly constructed window
by any sequence of add, toggle, delete and tick events, every stored
reminder text is non-empty, fixed under trimming (so it has no leading
or trailing whitespace) and contains a non-whitespace character; and
the construction ids along the list are strictly increasing, i.e. the
list order is exactly insertion order (deletion never reorders the
survivors). -/
theorem reachable_texts_trimmed_nonempty (t0 : DateTime) (ops : List Op) :
    (∀ p ∈ (run t0 ops).reminders,
      p.2.text ≠ [] ∧ pyStrip p.2.text = p.2.text ∧
      ∃ c ∈ p.2.text, c.isWhitespace = false) ∧
    List.Chain' (fun a b => a < b) ((run t0 ops).reminders.map Prod.fst) := by
  obtain ⟨hmem, _, hchain, _⟩ := stateOk_run t0 ops
  exact ⟨fun p hp => (hmem p hp).1, hchain⟩

/-- A fixed construction time for witnesses. -/
def T0 : DateTime := ⟨0, 0, 0, [], 1, [], 2000⟩

/-- An event sequence exercising add (with padded input), toggle,
delete and tick. -/
def OPS5 : List Op :=
  [Op.addRem ("  hi ".data), Op.addRem ("yo".data), Op.toggleCheck 0,
    Op.deleteSel [1], Op.tick T0]

/-- The entry the `OPS5` run ends with: "hi", toggled checked. -/
def R5 : Reminder :=
  { text := ['h', 'i'], checked := true,
    flags := orFlags defaultItemFlags ⟨true, true, true⟩ }

/-- C5 witness: the surviving toggled entry of the concrete event
sequence `OPS5` has a trimmed, non-blank text. -/
theorem reachable_texts_trimmed_nonempty_witness :
    (0, R5).2.text ≠ [] ∧
    pyStrip (0, R5).2.text = (0, R5).2.text ∧
    ∃ c ∈ (0, R5).2.text, c.isWhitespace = false :=
  (reachable_texts_trimmed_nonempty T0 OPS5).1 (0, R5) (by decide)

/-! ### C9: timer configuration and the synchronous initial update -/

/-- C9.  The clock refresh timer is armed with a 1000 ms interval at
construction and stays armed at that interval in every reachable
state (no handler ever stops or retunes it), and `update_clock` is
invoked synchronously during construction, so the freshly built
window already shows the formatted time and date of the construction
instant. -/
theorem timer_config_and_initial_update (t0 : DateTime) (ops : List Op) :
    (run t0 ops).timerActive = true ∧
    (run t0 ops).timerIntervalMs = 1000 ∧
    (initWindow t0).timeLabel = fmtTime t0 ∧
    (initWindow t0).dateLabel = fmtDate t0 := by
  obtain ⟨_, _, _, hta, hti, _⟩ := stateOk_run t0 ops
  exact ⟨hta, hti, rfl, rfl⟩

/-! ### C10: items stay checkable, enabled and selectable -/

/-- C10.  Every reminder is constructed unchecked with the
user-checkable, enabled and selectable flags set, and no reachable
state contains an item without them: in every state reachable by any
event sequence, every entry can be toggled and selected. -/
theorem reachable_items_checkable_enabled_selectable (t0 : DateTime) (ops : List Op) :
    (∀ p ∈ (run t0 ops).reminders,
      p.2.flags.userCheckable = true ∧ p.2.flags.enabled = true ∧
      p.2.flags.selectable = true) ∧
    (∀ s : List Char, (newReminder s).checked = false ∧
      (newReminder s).flags.userCheckable = true ∧
      (newReminder s).flags.enabled = true ∧
      (newReminder s).flags.selectable = true) := by
  obtain ⟨hmem, _⟩ := stateOk_run t0 ops
  exact ⟨fun p hp => (hmem p hp).2, fun s => ⟨rfl, rfl, rfl, rfl⟩⟩

/-- An event sequence that adds an entry and toggles it. -/
def OPS10 : List Op := [Op.addRem ("task".data), Op.toggleCheck 0]

/-- The entry the `OPS10` run ends with: "task", toggled checked. -/
def R10 : Reminder :=
  { text := "task".data, checked := true,
    flags := orFlags defaultItemFlags ⟨true, true, true⟩ }

/-- C10 witness: the toggled concrete entry still carries all three
interaction flags. -/
theorem reachable_items_checkable_enabled_selectable_witness :
    (0, R10).2.flags.userCheckable = true ∧
    (0, R10).2.flags.enabled = true ∧
    (0, R10).2.flags.selectable = true :=
  (reachable_items_checkable_enabled_selectable T0 OPS10).1 (0, R10) (by decide)

/-! ### C3: the list is stuck in single-selection mode -/

lemma applyGesture_single_len (sel : List Nat) (g : Gesture) :
    (applyGesture SelectionMode.single sel g).length ≤ 1 := by
  cases g with
  | plainClick i => exact Nat.le_refl 1
  | ctrlClick i =>
    show (if i ∈ sel then ([] : List Nat) else [i]).length ≤ 1
    by_cases h : i ∈ sel <;> simp [h]
  | shiftClick i => exact Nat.le_refl 1

/-- C3 (refuting the multi-selection capability).  The program never
calls `setSelectionMode`, so in every reachable state the list is in
the Qt default `SingleSelection` mode; under that mode every sequence
of click, Ctrl-click and Shift-click gestures starting from the empty
selection leaves at most one item selected, so `delete_selected` can
never receive a selection of two or more entries.  The last conjunct
shows the same Ctrl-click would have grown the selection had the mode
been `ExtendedSelection`. -/
theorem single_selection_mode_bounds_selection (t0 : DateTime) (ops : List Op)
    (gs : List Gesture) :
    (run t0 ops).selectionMode = SelectionMode.single ∧
    (gs.foldl (applyGesture SelectionMode.single) []).length ≤ 1 ∧
    applyGesture SelectionMode.extended [0] (Gesture.ctrlClick 1) = [1, 0] := by
  obtain ⟨_, _, _, _, _, hsm⟩ := stateOk_run t0 ops
  refine ⟨hsm, ?_, by decide⟩
  suffices h : ∀ (l : List Gesture) (sel : List Nat), sel.length ≤ 1 →
      (l.foldl (applyGesture SelectionMode.single) sel).length ≤ 1 from
    h gs [] (Nat.zero_le 1)
  intro l
  induction l with
  | nil => intro sel hsel; exact hsel
  | cons g rest ih => intro sel hsel; exact ih _ (applyGesture_single_len sel g)

/-! ### C7: the displayed formats -/

/-- Shape checker for a zero-padded 24-hour clock string: exactly
eight characters, digits everywhere except colons at positions 2
and 5. -/
def isHHMMSS (l : List Char) : Bool :=
  match l with
  | [h1, h2, c1, m1, m2, c2, s1, s2] =>
    h1.isDigit && h2.isDigit && (c1 == ':') && m1.isDigit && m2.isDigit &&
      (c2 == ':') && s1.isDigit && s2.isDigit
  | _ => false

/-- Numeric value of a two-character digit field. -/
def twoDigitVal (l : List Char) : Nat :=
  match l with
  | [a, b] => 10 * (a.toNat - 48) + (b.toNat - 48)
  | _ => 0

lemma pad2_spec : ∀ n, n < 100 → (pad2 n).length = 2 ∧
    (∀ c ∈ pad2 n, c.isDigit = true) ∧ twoDigitVal (pad2 n) = n := by decide

lemma digitChar_isDigit : ∀ m, m < 10 → (Nat.digitChar m).isDigit = true := by decide

lemma natDecimalAux_more (fuel n : Nat) (acc : List Char) (h : ¬ n < 10) :
    natDecimalAux (fuel + 1) n acc =
      natDecimalAux fuel (n / 10) (Nat.digitChar (n % 10) :: acc) := by
  simp [natDecimalAux, h]

lemma natDecimalAux_last (fuel n : Nat) (acc : List Char) (h : n < 10) :
    natDecimalAux (fuel + 1) n acc = Nat.digitChar n :: acc := by
  simp [natDecimalAux, h]

/-- A year in [1000, 9999] prints as exactly its four decimal
digits. -/
lemma natDecimal_year (y : Nat) (h1 : 1000 ≤ y) (h2 : y < 10000) :
    natDecimal y = [Nat.digitChar (y / 10 / 10 / 10), Nat.digitChar (y / 10 / 10 % 10),
      Nat.digitChar (y / 10 % 10), Nat.digitChar (y % 10)] := by
  have s1 : natDecimal y =
      natDecimalAux y (y / 10) [Nat.digitChar (y % 10)] :=
    natDecimalAux_more y y [] (by omega)
  have s2 : natDecimalAux y (y / 10) [Nat.digitChar (y % 10)] =
      natDecimalAux (y - 1) (y / 10 / 10)
        [Nat.digitChar (y / 10 % 10), Nat.digitChar (y % 10)] := by
    have h := natDecimalAux_more (y - 1) (y / 10)
      [Nat.digitChar (y % 10)] (by omega)
    rwa [show (y - 1) + 1 = y from by omega] at h
  have s3 : natDecimalAux (y - 1) (y / 10 / 10)
        [Nat.digitChar (y / 10 % 10), Nat.digitChar (y % 10)] =
      natDecimalAux (y - 2) (y / 10 / 10 / 10)
        [Nat.digitChar (y / 10 / 10 % 10), Nat.digitChar (y / 10 % 10),
          Nat.digitChar (y % 10)] := by
    have h := natDecimalAux_more (y - 2) (y / 10 / 10)
      [Nat.digitChar (y / 10 % 10), Nat.digitChar (y % 10)] (by omega)
    rwa [show (y - 2) + 1 = y - 1 from by omega] at h
  have s4 : natDecimalAux (y - 2) (y / 10 / 10 / 10)
        [Nat.digitChar (y / 10 / 10 % 10), Nat.digitChar (y / 10 % 10),
          Nat.digitChar (y % 10)] =
      Nat.digitChar (y / 10 / 10 / 10) ::
        [Nat.digitChar (y / 10 / 10 % 10), Nat.digitChar (y / 10 % 10),
          Nat.digitChar (y % 10)] := by
    have h := natDecimalAux_last (y - 3) (y / 10 / 10 / 10)
      [Nat.digitChar (y / 10 / 10 % 10), Nat.digitChar (y / 10 % 10),
        Nat.digitChar (y % 10)] (by omega)
    rwa [show (y - 3) + 1 = y - 2 from by omega] at h
  rw [s1, s2, s3, s4]

lemma natDecimal_year_shape (y : Nat) (h1 : 1000 ≤ y) (h2 : y < 10000) :
    (natDecimal y).length = 4 ∧ ∀ c ∈ natDecimal y, c.isDigit = true := by
  rw [natDecimal_year y h1 h2]
  refine ⟨rfl, ?_⟩
  intro c hc
  simp only [List.mem_cons, List.not_mem_nil, or_false] at hc
  rcases hc with h | h | h | h <;> rw [h] <;>
    exact digitChar_isDigit _ (by omega)

/-- C7.  A tick rewrites the time label with
`HH:MM:SS` — two zero-padded digits per field, colons between, the
fields decoding back to the sampled hour, minute and second — and the
date label with the localized full weekday name, a comma and space,
the zero-padded two-digit day, a space, the localized full month
name, a space, and the four-digit year, in exactly that order. -/
theorem update_clock_formats (st : WindowState) (t : DateTime)
    (hh : t.hour < 24) (hm : t.minute < 60) (hs : t.second < 60)
    (hd : t.day < 32) (hy1 : 1000 ≤ t.year) (hy2 : t.year < 10000) :
    (step st (Op.tick t)).timeLabel = fmtTime t ∧
    (step st (Op.tick t)).dateLabel = fmtDate t ∧
    fmtTime t = pad2 t.hour ++ ':' :: pad2 t.minute ++ ':' :: pad2 t.second ∧
    isHHMMSS (fmtTime t) = true ∧
    (fmtTime t).length = 8 ∧
    twoDigitVal (pad2 t.hour) = t.hour ∧
    twoDigitVal (pad2 t.minute) = t.minute ∧
    twoDigitVal (pad2 t.second) = t.second ∧
    fmtDate t = t.weekdayName ++ ',' :: ' ' :: pad2 t.day ++ ' ' ::
      t.monthName ++ ' ' :: natDecimal t.year ∧
    (pad2 t.day).length = 2 ∧
    (∀ c ∈ pad2 t.day, c.isDigit = true) ∧
    twoDigitVal (pad2 t.day) = t.day ∧
    (natDecimal t.year).length = 4 ∧
    (∀ c ∈ natDecimal t.year, c.isDigit = true) := by
  have hdig : ∀ m : Nat, m < 100 →
      (Nat.digitChar (m / 10)).isDigit = true ∧
      (Nat.digitChar (m % 10)).isDigit = true := fun m hm =>
    ⟨digitChar_isDigit _ (by omega), digitChar_isDigit _ (by omega)⟩
  have h1 := hdig t.hour (by omega)
  have h2 := hdig t.minute (by omega)
  have h3 := hdig t.second (by omega)
  have hshape : isHHMMSS (fmtTime t) = true := by
    simp [isHHMMSS, fmtTime, pad2, h1.1, h1.2, h2.1, h2.2, h3.1, h3.2]
  refine ⟨rfl, rfl, rfl, hshape, rfl,
    (pad2_spec t.hour (by omega)).2.2, (pad2_spec t.minute (by omega)).2.2,
    (pad2_spec t.second (by omega)).2.2, rfl,
    (pad2_spec t.day (by omega)).1, (pad2_spec t.day (by omega)).2.1,
    (pad2_spec t.day (by omega)).2.2,
    (natDecimal_year_shape t.year hy1 hy2).1,
    (natDecimal_year_shape t.year hy1 hy2).2⟩

/-- The wall-clock sample used in the C7 witness. -/
def T7 : DateTime := ⟨13, 5, 9, "Thursday".data, 5, "June".data, 2025⟩

/-- C7 witness at the concrete sample `T7` (a Thursday, 05 June
2025, 13:05:09). -/
theorem update_clock_formats_witness :
    (step (initWindow T0) (Op.tick T7)).timeLabel = fmtTime T7 ∧
    (step (initWindow T0) (Op.tick T7)).dateLabel = fmtDate T7 ∧
    isHHMMSS (fmtTime T7) = true ∧
    twoDigitVal (pad2 T7.day) = T7.day ∧
    (natDecimal T7.year).length = 4 := by
  have h := update_clock_formats (initWindow T0) T7 (by decide) (by decide)
    (by decide) (by decide) (by decide) (by decide)
  exact ⟨h.1, h.2.1, h.2.2.2.1, h.2.2.2.2.2.2.2.2.2.2.2.1, h.2.2.2.2.2.2.2.2.2.2.2.2.1⟩

end PyWatch
